import Mathlib

/-!
# Scheduled-delivery pipeline of the social-media scheduler

A shallow embedding of `services/scheduler`:

* `internal/types/types.go`         : `PostJob`
* `internal/queue/queue.go`         : `fetchAndQueuePosts`, `EnqueuePost`, `ProcessScheduledPosts`
* `internal/publisher/publisher.go` : `Publisher.Publish`
* `internal/platforms/*.go`         : the four platform clients
* `internal/config/config.go`       : `Config`

Conventions of the embedding.

* Go `int` / `int64` values are `Int`; where the code can overflow (`RetryCount++`)
  the result is wrapped with `wrapInt64`.
* A Go `error` is an `Option String` (`none` is `nil`).
* `float64` values that occur in the score computation are always integers, so
  they are carried as `Int`, and every `float64` operation is followed by the
  IEEE-754 round-to-nearest-even step `roundFloat64`.
* Redis is an explicit state (`RedisState`) passed through the operations; the
  network is assumed reliable, so the only failure of `EnqueuePost` is the failure
  of `json.Marshal`.
-/

namespace Scheduler

/-! ## Machine arithmetic -/

/-- Two's-complement wrap of a mathematical integer into the `int64` range. -/
def wrapInt64 (x : Int) : Int := (x + 2 ^ 63) % 2 ^ 64 - 2 ^ 63

/-- Round a mathematical integer to the nearest `float64` (ties to even).  Every
integer of magnitude below `2 ^ 53` is a `float64`; above, the 53 leading bits are
kept.  All integers of interest are far below the overflow threshold `2 ^ 1024`. -/
def roundFloat64 (n : Int) : Int :=
  let a := n.natAbs
  if a < 2 ^ 53 then n
  else
    let e := Nat.log2 a - 52
    let q := a / 2 ^ e
    let r := a % 2 ^ e
    let half := 2 ^ (e - 1)
    let q1 := if half < r ∨ (r = half ∧ q % 2 = 1) then q + 1 else q
    Int.sign n * ((q1 * 2 ^ e : Nat) : Int)

/-! ## Data model (`internal/types/types.go`) -/

/-- The part of a Go `time.Time` the pipeline observes: `Unix()` seconds, the
nanosecond within the second, and the zone offset (minutes east of UTC, the
resolution RFC 3339 carries). -/
structure Time where
  unix : Int
  nsec : Nat
  zone : Int
deriving DecidableEq, Repr

/-- Go `Time.Before`: comparison of instants at full (nanosecond) resolution. -/
def Time.Before (t u : Time) : Prop :=
  t.unix < u.unix ∨ (t.unix = u.unix ∧ t.nsec < u.nsec)

instance (t u : Time) : Decidable (t.Before u) := by
  unfold Time.Before; infer_instance

/-- The struct `types.PostJob`. -/
structure PostJob where
  PostID : String
  PlatformConfig : String
  Platform : String
  AccountID : String
  Content : String
  MediaURLs : List String
  Hashtags : List String
  ScheduledAt : Time
  Priority : Int
  RetryCount : Int
deriving DecidableEq, Repr

/-! ## JSON serialisation of a job -/

/-- `Time.MarshalJSON` succeeds exactly when the timestamp, in its own zone, has a
year in `[0, 9999]` (`0000-01-01T00:00:00` is second `-62167219200`,
`9999-12-31T23:59:59` is second `253402300799`) and a zone offset of less than 24
hours. -/
def Time.Marshalable (t : Time) : Prop :=
  -62167219200 ≤ t.unix + 60 * t.zone ∧ t.unix + 60 * t.zone ≤ 253402300799 ∧
    -1440 < t.zone ∧ t.zone < 1440

instance (t : Time) : Decidable t.Marshalable := by
  unfold Time.Marshalable; infer_instance

/-- A member of a Redis key: either the JSON text `json.Marshal` produces for a
job (identified with the job it encodes) or a byte string that `json.Unmarshal`
rejects.  Byte strings another program could write that decode to a job without
being the text `json.Marshal` produces for it are not represented. -/
inductive Member where
  | json (job : PostJob)
  | raw (bytes : String)
deriving DecidableEq, Repr

/-- Go `json.Marshal(job)`: every field of `PostJob` always serialises except
`ScheduledAt`, whose `MarshalJSON` can fail. -/
def marshalJob (job : PostJob) : Except String Member :=
  if job.ScheduledAt.Marshalable then .ok (.json job)
  else .error "json: error calling MarshalJSON for type time.Time"

/-- Go `json.Unmarshal(member, &job)` on the members represented: it succeeds on
the JSON text of a job (whose timestamp is then necessarily a well-formed RFC 3339
one) and fails on a byte string that is not valid JSON for a job. -/
def unmarshalJob : Member → Except String PostJob
  | .json job =>
    if job.ScheduledAt.Marshalable then .ok job else .error "parsing time: out of range"
  | .raw _ => .error "invalid character"

/-! ## The Redis keys -/

/-- The type `redis.Z`: a sorted-set entry. -/
structure Z where
  Score : Int
  Member : Member
deriving DecidableEq, Repr

/-- A Redis sorted set, kept by descending score.  Members are unique.  (Redis
orders entries of equal score by member bytes; here the entry added last comes
first among equal scores.) -/
abbrev ZSet := List Z

/-- Insert an entry at its place in a list that is descending by score. -/
def ZSet.place (e : Z) : ZSet → ZSet
  | [] => [e]
  | x :: xs => if x.Score ≤ e.Score then e :: x :: xs else x :: ZSet.place e xs

/-- Redis `ZADD key score member`: a member already present only has its score
updated, otherwise the entry is added. -/
def ZAdd (z : ZSet) (e : Z) : ZSet :=
  ZSet.place e (z.filter fun x => x.Member ≠ e.Member)

/-- Redis `ZPOPMAX key 1`: remove and return the entry of highest score, if any. -/
def ZPopMax : ZSet → Option (Z × ZSet)
  | [] => none
  | e :: rest => some (e, rest)

/-- The two keys the queue uses: the sorted set `scheduled_posts` and the list
`failed_posts` (`LPUSH` adds at the head). -/
structure RedisState where
  scheduled_posts : ZSet
  failed_posts : List Member
deriving DecidableEq, Repr

/-- A Redis instance with no key set. -/
def RedisState.empty : RedisState := ⟨[], []⟩

/-! ## `EnqueuePost` (`internal/queue/queue.go`) -/

/-- The score expression of `EnqueuePost`:
`float64(job.Priority)*1e12 - float64(job.ScheduledAt.Unix())`, each conversion
and each operation rounded to `float64`.  (The constant `1e12` is a `float64`; a
product of magnitude below `2 ^ 53` is exact, so a compiler that fuses the
multiplication and the subtraction computes the same value there.) -/
def score (job : PostJob) : Int :=
  roundFloat64 (roundFloat64 (roundFloat64 job.Priority * 10 ^ 12)
    - roundFloat64 job.ScheduledAt.unix)

/-- `RedisQueue.EnqueuePost`: serialise the job, compute its score and `ZADD` it
to `scheduled_posts`.  A serialisation failure is returned before anything is
computed or written. -/
def EnqueuePost (q : RedisState) (job : PostJob) : Except String RedisState :=
  match marshalJob job with
  | .error err => .error ("failed to marshal job: " ++ err)
  | .ok data =>
    .ok { q with scheduled_posts := ZAdd q.scheduled_posts ⟨score job, data⟩ }


/-! ## Platform clients (`internal/platforms`) and configuration -/

/-- The struct `config.Config`. -/
structure Config where
  Port : String
  DatabaseURL : String
  RedisURL : String
  Environment : String
  MetaClientID : String
  MetaClientSecret : String
  XClientID : String
  XClientSecret : String
  LinkedInClientID : String
  LinkedInClientSecret : String
  TikTokClientID : String
  TikTokClientSecret : String
deriving DecidableEq, Repr

/-- The struct `platforms.MetaClient`. -/
structure MetaClient where
  clientID : String
  clientSecret : String
deriving DecidableEq, Repr

/-- The struct `platforms.XClient`. -/
structure XClient where
  clientID : String
  clientSecret : String
deriving DecidableEq, Repr

/-- The struct `platforms.LinkedInClient`. -/
structure LinkedInClient where
  clientID : String
  clientSecret : String
deriving DecidableEq, Repr

/-- The struct `platforms.TikTokClient`. -/
structure TikTokClient where
  clientID : String
  clientSecret : String
deriving DecidableEq, Repr

/-- `MetaClient.Publish`: the published ID and the error. -/
def MetaClient.Publish (c : MetaClient) (_job : PostJob) : String × Option String :=
  if c.clientID = "" ∨ c.clientSecret = "" then
    ("", some "Meta API credentials not configured")
  else
    ("", some "Meta publishing not yet implemented")

/-- `XClient.Publish`: the published ID and the error. -/
def XClient.Publish (c : XClient) (_job : PostJob) : String × Option String :=
  if c.clientID = "" ∨ c.clientSecret = "" then
    ("", some "X API credentials not configured")
  else
    ("", some "X publishing not yet implemented")

/-- `LinkedInClient.Publish`: the published ID and the error. -/
def LinkedInClient.Publish (c : LinkedInClient) (_job : PostJob) : String × Option String :=
  if c.clientID = "" ∨ c.clientSecret = "" then
    ("", some "LinkedIn API credentials not configured")
  else
    ("", some "LinkedIn publishing not yet implemented")

/-- `TikTokClient.Publish`: the published ID and the error. -/
def TikTokClient.Publish (c : TikTokClient) (_job : PostJob) : String × Option String :=
  if c.clientID = "" ∨ c.clientSecret = "" then
    ("", some "TikTok API credentials not configured")
  else
    ("", some "TikTok publishing not yet implemented")

/-! ## `Publisher` (`internal/publisher/publisher.go`) -/

/-- The struct `publisher.Publisher` (the logger has no effect on the outcome and
is left out). -/
structure Publisher where
  config : Config
  meta : MetaClient
  x : XClient
  linkedin : LinkedInClient
  tiktok : TikTokClient
deriving DecidableEq, Repr

/-- `publisher.New`: one client per platform, built from the configured
credentials. -/
def Publisher.New (cfg : Config) : Publisher :=
  { config := cfg
    meta := ⟨cfg.MetaClientID, cfg.MetaClientSecret⟩
    x := ⟨cfg.XClientID, cfg.XClientSecret⟩
    linkedin := ⟨cfg.LinkedInClientID, cfg.LinkedInClientSecret⟩
    tiktok := ⟨cfg.TikTokClientID, cfg.TikTokClientSecret⟩ }

/-- `Publisher.Publish`: route the job by `job.Platform`; the result is the error
(`none` on success). -/
def Publisher.Publish (p : Publisher) (job : PostJob) : Option String :=
  let route : Option (String × Option String) :=
    if job.Platform = "META" then some (p.meta.Publish job)
    else if job.Platform = "X" then some (p.x.Publish job)
    else if job.Platform = "LINKEDIN" then some (p.linkedin.Publish job)
    else if job.Platform = "TIKTOK" then some (p.tiktok.Publish job)
    else none
  match route with
  | none => some ("unsupported platform: " ++ job.Platform)
  | some (_publishedID, some err) => some err
  | some (_publishedID, none) => none

/-! ## The dispatch loop (`ProcessScheduledPosts`) -/

/-- What one iteration of the loop of `ProcessScheduledPosts` did. -/
inductive Outcome where
  /-- The queue was empty: sleep 100ms and poll again. -/
  | idle
  /-- The popped member did not decode as a job: it is logged and gone. -/
  | dropped (m : Member)
  /-- The job was published. -/
  | delivered (job : PostJob)
  /-- Publishing failed and the job, with its new retry count, was put back. -/
  | requeued (job : PostJob)
  /-- Publishing failed and putting the job back failed too (the error of
  `EnqueuePost` is ignored). -/
  | lost (job : PostJob)
  /-- Publishing failed and the job was pushed to `failed_posts`. -/
  | deadLettered (job : PostJob)
deriving DecidableEq, Repr

/-- The statement `job.RetryCount++` on a Go `int`. -/
def incrRetry (job : PostJob) : PostJob :=
  { job with RetryCount := wrapInt64 (job.RetryCount + 1) }

/-- One iteration of the `for` loop of `ProcessScheduledPosts` with the context
not cancelled, for a publisher `pub` (the `Publish` method of the interface).  The
two `time.Sleep` calls (idle wait, back-off before a job is put back) change no
state and are left out. -/
def processOne (pub : PostJob → Option String) (q : RedisState) : Outcome × RedisState :=
  match ZPopMax q.scheduled_posts with
  | none => (.idle, q)
  | some (entry, rest) =>
    let q1 : RedisState := { q with scheduled_posts := rest }
    match unmarshalJob entry.Member with
    | .error _ => (.dropped entry.Member, q1)
    | .ok job =>
      match pub job with
      | none => (.delivered job, q1)
      | some _ =>
        let job1 := incrRetry job
        if job1.RetryCount < 3 then
          match EnqueuePost q1 job1 with
          | .ok q2 => (.requeued job1, q2)
          | .error _ => (.lost job1, q1)
        else
          let data : Member :=
            match marshalJob job1 with
            | .ok d => d
            | .error _ => .raw ""
          (.deadLettered job1, { q1 with failed_posts := data :: q1.failed_posts })

/-- Run `n` iterations of the loop, collecting what each one did. -/
def ProcessScheduledPosts (pub : PostJob → Option String) :
    Nat → RedisState → List Outcome × RedisState
  | 0, q => ([], q)
  | n + 1, q =>
    let r := processOne pub q
    let rs := ProcessScheduledPosts pub n r.2
    (r.1 :: rs.1, rs.2)

/-- Repeat `ZPOPMAX` at most `n` times, until the sorted set is empty; the entries
in the order they came out, and what is left. -/
def extractAll : Nat → ZSet → List Z × ZSet
  | 0, z => ([], z)
  | n + 1, z =>
    match ZPopMax z with
    | none => ([], z)
    | some (e, rest) =>
      let r := extractAll n rest
      (e :: r.1, r.2)

/-- Call `EnqueuePost` for each job in turn, going on after an error as the poller
does. -/
def enqueueAll (q : RedisState) : List PostJob → RedisState
  | [] => q
  | job :: jobs =>
    match EnqueuePost q job with
    | .ok q1 => enqueueAll q1 jobs
    | .error _ => enqueueAll q jobs


/-! ## The poller (`fetchAndQueuePosts`) -/

/-- One row of `posts p JOIN post_platform_configs pc JOIN workspaces w`, with the
columns the query of `fetchAndQueuePosts` reads.  `none` is SQL `NULL`; timestamps
are PostgreSQL microseconds since the epoch; the two serialised lists are kept as
the bytes the driver returns. -/
structure Row where
  p_id : String
  pc_id : String
  p_status : Option String
  pc_status : Option String
  pc_platform : Option String
  pc_account_id : Option String
  pc_content : Option String
  p_content : Option String
  pc_media_urls : Option String
  p_media_urls : Option String
  pc_hashtags : Option String
  p_scheduled_at : Option Int
  w_tier : Option String
deriving DecidableEq, Repr

/-- SQL `COALESCE(a, b)`: the first argument that is not `NULL`. -/
def coalesce {α : Type} : Option α → Option α → Option α
  | some a, _ => some a
  | none, b => b

/-- The `WHERE` clause of the query, at the instant `now` (microseconds):
`p.status = 'SCHEDULED' AND pc.status = 'SCHEDULED'
 AND p.scheduled_at <= NOW() + INTERVAL '1 minute'
 AND p.scheduled_at > NOW() - INTERVAL '15 minutes'`.
A comparison with `NULL` is not true. -/
def whereClause (now : Int) (r : Row) : Bool :=
  r.p_status == some "SCHEDULED" && r.pc_status == some "SCHEDULED" &&
    (match r.p_scheduled_at with
     | none => false
     | some t => decide (t ≤ now + 60 * 1000000) && decide (t > now - 15 * 60 * 1000000))

/-- The `CASE` expression of the query that computes `priority` from `w.tier`. -/
def priorityOf (r : Row) : Int :=
  if r.w_tier = some "ENTERPRISE" then 3
  else if r.w_tier = some "PROFESSIONAL" then 2
  else 1

/-- The clause `ORDER BY priority DESC, p.scheduled_at ASC` as a relation on the
selected rows (whose `scheduled_at` is not `NULL`). -/
def orderBy (r1 r2 : Row) : Prop :=
  priorityOf r2 < priorityOf r1 ∨
    (priorityOf r1 = priorityOf r2 ∧ r1.p_scheduled_at.getD 0 ≤ r2.p_scheduled_at.getD 0)

instance : DecidableRel orderBy := fun r1 r2 => by
  unfold orderBy; infer_instance

/-- The Go `time.Time` the driver builds from a PostgreSQL timestamp, in the zone
`zone` of the scanning process. -/
def timeOfMicros (zone : Int) (us : Int) : Time :=
  { unix := us / 1000000, nsec := (us % 1000000).toNat * 1000, zone := zone }

/-- The body of the `rows.Next()` loop up to `EnqueuePost`: `rows.Scan` into a
fresh `PostJob` (an error when a `NULL` meets a `string` or `time.Time`
destination), then the two `json.Unmarshal` calls, whose errors are discarded;
`decode` gives the slice `json.Unmarshal` leaves for the bytes of a column. -/
def scanRow (decode : Option String → List String) (zone : Int) (r : Row) :
    Except String PostJob :=
  match r.pc_platform, r.pc_account_id, coalesce r.pc_content r.p_content,
      r.p_scheduled_at with
  | some platform, some account, some content, some ts =>
    .ok { PostID := r.p_id
          PlatformConfig := r.pc_id
          Platform := platform
          AccountID := account
          Content := content
          MediaURLs := decode (coalesce r.pc_media_urls r.p_media_urls)
          Hashtags := decode r.pc_hashtags
          ScheduledAt := timeOfMicros zone ts
          Priority := priorityOf r
          RetryCount := 0 }
  | _, _, _, _ => .error "cannot scan NULL"

/-- The `for rows.Next()` loop of `fetchAndQueuePosts` over the rows the query
returned.  A row that fails to enqueue is logged and the loop goes on; a row that
fails to scan is logged too, but the driver closes the result set on a scan error,
so `rows.Next()` is false afterwards and the loop ends there. -/
def enqueueRows (decode : Option String → List String) (zone : Int) :
    List Row → RedisState → RedisState
  | [], q => q
  | r :: rows, q =>
    match scanRow decode zone r with
    | .error _ => q
    | .ok job =>
      match EnqueuePost q job with
      | .ok q1 => enqueueRows decode zone rows q1
      | .error _ => enqueueRows decode zone rows q

/-- `RedisQueue.fetchAndQueuePosts` at the instant `now`, over the joined table
`table`: run the query, then scan and enqueue the rows it returned. -/
def fetchAndQueuePosts (decode : Option String → List String) (zone : Int) (now : Int)
    (table : List Row) (q : RedisState) : RedisState :=
  enqueueRows decode zone ((table.filter (whereClause now)).insertionSort orderBy) q


/-! ## Concrete inputs -/

/-- A job of priority 3 due at Unix second `3 * 10 ^ 12` (UTC). -/
def farFutureJob : PostJob :=
  { PostID := "p1", PlatformConfig := "c1", Platform := "META", AccountID := "a1",
    Content := "hello", MediaURLs := [], Hashtags := [],
    ScheduledAt := ⟨3000000000000, 0, 0⟩, Priority := 3, RetryCount := 0 }

/-- A job of priority 1 due at Unix second `0` (UTC). -/
def epochJob : PostJob :=
  { PostID := "p2", PlatformConfig := "c2", Platform := "X", AccountID := "a2",
    Content := "hello", MediaURLs := [], Hashtags := [],
    ScheduledAt := ⟨0, 0, 0⟩, Priority := 1, RetryCount := 0 }

/-- A job of priority 3 due at `2023-11-14T22:13:20Z`. -/
def enterpriseJob : PostJob :=
  { PostID := "p3", PlatformConfig := "c3", Platform := "META", AccountID := "a3",
    Content := "launch", MediaURLs := ["https://cdn.example/1.png"], Hashtags := ["news"],
    ScheduledAt := ⟨1700000000, 0, 0⟩, Priority := 3, RetryCount := 0 }

/-- A job of priority 1 due sixty seconds before `enterpriseJob`. -/
def freeJob : PostJob :=
  { PostID := "p4", PlatformConfig := "c4", Platform := "LINKEDIN", AccountID := "a4",
    Content := "notes", MediaURLs := [], Hashtags := [],
    ScheduledAt := ⟨1699999940, 0, 0⟩, Priority := 1, RetryCount := 0 }

/-- A job of priority 2 due at `2023-11-14T22:13:20Z` sharp. -/
def onTheSecondJob : PostJob :=
  { PostID := "p5", PlatformConfig := "c5", Platform := "X", AccountID := "a5",
    Content := "first", MediaURLs := [], Hashtags := [],
    ScheduledAt := ⟨1700000000, 0, 0⟩, Priority := 2, RetryCount := 0 }

/-- A job of priority 2 due half a second after `onTheSecondJob`. -/
def halfSecondLaterJob : PostJob :=
  { PostID := "p6", PlatformConfig := "c6", Platform := "X", AccountID := "a6",
    Content := "second", MediaURLs := [], Hashtags := [],
    ScheduledAt := ⟨1700000000, 500000000, 0⟩, Priority := 2, RetryCount := 0 }

/-- A job of priority 2 due one second after `onTheSecondJob`. -/
def oneSecondLaterJob : PostJob :=
  { PostID := "p7", PlatformConfig := "c7", Platform := "X", AccountID := "a7",
    Content := "third", MediaURLs := [], Hashtags := [],
    ScheduledAt := ⟨1700000001, 0, 0⟩, Priority := 2, RetryCount := 0 }

/-- The sorted-set entry `EnqueuePost` writes for a job that serialises. -/
def entryOf (job : PostJob) : Z := ⟨score job, .json job⟩

/-- The priorities the query of the poller produces. -/
def ValidPriority (job : PostJob) : Prop :=
  job.Priority = 1 ∨ job.Priority = 2 ∨ job.Priority = 3

instance (job : PostJob) : Decidable (ValidPriority job) := by
  unfold ValidPriority; infer_instance

/-- The values of a Go `int64`. -/
def IsInt64 (x : Int) : Prop := -2 ^ 63 ≤ x ∧ x < 2 ^ 63

instance (x : Int) : Decidable (IsInt64 x) := by
  unfold IsInt64; infer_instance

/-- The job `job` with its retry count set to `n`. -/
def withRetry (job : PostJob) (n : Int) : PostJob := { job with RetryCount := n }

/-- The priority-3 job with the largest retry count a Go `int` holds. -/
def maxRetryJob : PostJob := { enterpriseJob with RetryCount := 2 ^ 63 - 1 }

/-- A publisher that fails every delivery. -/
def alwaysFails : PostJob → Option String := fun _ => some "transport error"

/-- A publisher that fails a job until it has been retried twice. -/
def failsTwice : PostJob → Option String := fun job =>
  if job.RetryCount < 2 then some "transport error" else none

/-- A job for a platform the publisher does not know. -/
def unknownPlatformJob : PostJob :=
  { PostID := "p8", PlatformConfig := "c8", Platform := "UNKNOWN", AccountID := "a8",
    Content := "hi", MediaURLs := [], Hashtags := [],
    ScheduledAt := ⟨1700000000, 0, 0⟩, Priority := 1, RetryCount := 0 }

/-- A configuration with every credential set. -/
def fullConfig : Config :=
  { Port := "4001", DatabaseURL := "postgres://db", RedisURL := "redis://localhost:6379",
    Environment := "production",
    MetaClientID := "m", MetaClientSecret := "ms", XClientID := "x", XClientSecret := "xs",
    LinkedInClientID := "l", LinkedInClientSecret := "ls",
    TikTokClientID := "t", TikTokClientSecret := "ts" }

/-- A joined row in status `SCHEDULED` whose platform configuration overrides the
content with the empty string; the post's own content is `A`. -/
def emptyOverrideRow : Row :=
  { p_id := "p9", pc_id := "c9", p_status := some "SCHEDULED", pc_status := some "SCHEDULED",
    pc_platform := some "X", pc_account_id := some "a9",
    pc_content := some "", p_content := some "A",
    pc_media_urls := none, p_media_urls := none, pc_hashtags := none,
    p_scheduled_at := some 1700000000000000, w_tier := some "PROFESSIONAL" }

/-- A decoder for rows whose serialised lists are all empty. -/
def noStrings : Option String → List String := fun _ => []

/-- A sorted set laid out by descending score. -/
def Descending (z : ZSet) : Prop := z.Pairwise fun a b => b.Score ≤ a.Score

/-! # Theorems -/

/-! ## Arithmetic of the score -/

theorem roundFloat64_exact (n : Int) (h : n.natAbs < 2 ^ 53) : roundFloat64 n = n := by
  unfold roundFloat64
  simp only [h, if_true]

theorem marshalable_bounds {t : Time} (h : t.Marshalable) :
    -62167305600 < t.unix ∧ t.unix < 253402387200 := by
  unfold Time.Marshalable at h
  omega

theorem score_exact (job : PostJob) (hp : ValidPriority job)
    (ht : -2 ^ 52 < job.ScheduledAt.unix ∧ job.ScheduledAt.unix < 2 ^ 52) :
    score job = job.Priority * 10 ^ 12 - job.ScheduledAt.unix := by
  unfold ValidPriority at hp
  unfold score
  rw [roundFloat64_exact job.Priority (by omega),
    roundFloat64_exact (job.Priority * 10 ^ 12) (by omega),
    roundFloat64_exact job.ScheduledAt.unix (by omega),
    roundFloat64_exact _ (by omega)]

theorem marshalable_exact {t : Time} (h : t.Marshalable) :
    -2 ^ 52 < t.unix ∧ t.unix < 2 ^ 52 := by
  have := marshalable_bounds h
  omega

/-! ## `EnqueuePost` and the sorted set -/

theorem marshalJob_ok {job : PostJob} (h : job.ScheduledAt.Marshalable) :
    marshalJob job = .ok (.json job) := by
  simp [marshalJob, h]

theorem unmarshalJob_ok {job : PostJob} (h : job.ScheduledAt.Marshalable) :
    unmarshalJob (.json job) = .ok job := by
  simp [unmarshalJob, h]

theorem EnqueuePost_ok {q : RedisState} {job : PostJob} (h : job.ScheduledAt.Marshalable) :
    EnqueuePost q job
      = .ok { q with scheduled_posts := ZAdd q.scheduled_posts (entryOf job) } := by
  simp [EnqueuePost, marshalJob_ok h, entryOf]

theorem EnqueuePost_ok_iff {q r : RedisState} {job : PostJob} :
    EnqueuePost q job = .ok r ↔
      job.ScheduledAt.Marshalable ∧
        r = { q with scheduled_posts := ZAdd q.scheduled_posts (entryOf job) } := by
  by_cases h : job.ScheduledAt.Marshalable
  · rw [EnqueuePost_ok h]
    constructor
    · intro h1
      injection h1 with h1
      exact ⟨h, h1.symm⟩
    · rintro ⟨_, rfl⟩
      rfl
  · simp [EnqueuePost, marshalJob, h]

theorem mem_place (e x : Z) (z : ZSet) : x ∈ ZSet.place e z ↔ x = e ∨ x ∈ z := by
  induction z with
  | nil => simp [ZSet.place]
  | cons y ys ih =>
    unfold ZSet.place
    split
    · simp
    · simp only [List.mem_cons, ih]
      tauto

theorem mem_ZAdd_self (z : ZSet) (e : Z) : e ∈ ZAdd z e := by
  unfold ZAdd
  exact (mem_place e e _).2 (Or.inl rfl)

/-- Claim C1 (amended).  For two jobs with priorities in `{1, 2, 3}` and
`j1.Priority > j2.Priority`, the score of `j1` is strictly greater than the score
of `j2` whenever the two due times are less than `10 ^ 12` seconds apart (and
below `2 ^ 52` in magnitude, where the `float64` arithmetic is exact); this covers
every pair of jobs `EnqueuePost` accepts, because a timestamp only serialises with
a year in `[0, 9999]`, and the score is then the one written to `scheduled_posts`. -/
theorem score_priority_order (j1 j2 : PostJob) (hp1 : ValidPriority j1)
    (hp2 : ValidPriority j2) (h : j2.Priority < j1.Priority) :
    (-2 ^ 52 < j1.ScheduledAt.unix ∧ j1.ScheduledAt.unix < 2 ^ 52 →
      -2 ^ 52 < j2.ScheduledAt.unix ∧ j2.ScheduledAt.unix < 2 ^ 52 →
      j1.ScheduledAt.unix - j2.ScheduledAt.unix < 10 ^ 12 → score j2 < score j1) ∧
    (∀ q1 q2 r1 r2 : RedisState, EnqueuePost q1 j1 = .ok r1 → EnqueuePost q2 j2 = .ok r2 →
      score j2 < score j1 ∧
        (⟨score j1, .json j1⟩ : Z) ∈ r1.scheduled_posts ∧
        (⟨score j2, .json j2⟩ : Z) ∈ r2.scheduled_posts) := by
  have key : -2 ^ 52 < j1.ScheduledAt.unix ∧ j1.ScheduledAt.unix < 2 ^ 52 →
      -2 ^ 52 < j2.ScheduledAt.unix ∧ j2.ScheduledAt.unix < 2 ^ 52 →
      j1.ScheduledAt.unix - j2.ScheduledAt.unix < 10 ^ 12 → score j2 < score j1 := by
    intro e1 e2 hd
    rw [score_exact j1 hp1 e1, score_exact j2 hp2 e2]
    unfold ValidPriority at hp1 hp2
    omega
  refine ⟨key, ?_⟩
  intro q1 q2 r1 r2 h1 h2
  obtain ⟨m1, rfl⟩ := EnqueuePost_ok_iff.1 h1
  obtain ⟨m2, rfl⟩ := EnqueuePost_ok_iff.1 h2
  refine ⟨?_, mem_ZAdd_self _ _, mem_ZAdd_self _ _⟩
  have b1 := marshalable_bounds m1
  have b2 := marshalable_bounds m2
  exact key (marshalable_exact m1) (marshalable_exact m2) (by omega)

/-- Witness of `score_priority_order`: a priority-3 and a priority-1 job sixty
seconds apart, each enqueued into an empty Redis. -/
theorem score_priority_order_witness :
    ValidPriority enterpriseJob ∧ ValidPriority freeJob ∧
      freeJob.Priority < enterpriseJob.Priority ∧
      EnqueuePost .empty enterpriseJob = .ok ⟨[entryOf enterpriseJob], []⟩ ∧
      EnqueuePost .empty freeJob = .ok ⟨[entryOf freeJob], []⟩ ∧
      score freeJob < score enterpriseJob :=
  ⟨by decide, by decide, by decide, rfl, rfl,
    ((score_priority_order enterpriseJob freeJob (by decide) (by decide) (by decide)).2
      .empty .empty ⟨[entryOf enterpriseJob], []⟩ ⟨[entryOf freeJob], []⟩ rfl rfl).1⟩

/-- Claim C1 (counterexample).  A priority-3 job due at Unix second `3 * 10 ^ 12`
and a priority-1 job due at second `0`: both timestamps are `int64` values, the
score expression of `EnqueuePost` gives the priority-3 job the smaller score, and
`EnqueuePost` itself refuses the priority-3 job (it does not serialise), so it
writes no score for it at all. -/
theorem score_priority_order_counterexample :
    farFutureJob.Priority = 3 ∧ epochJob.Priority = 1 ∧
      IsInt64 farFutureJob.ScheduledAt.unix ∧ IsInt64 epochJob.ScheduledAt.unix ∧
      score farFutureJob = 0 ∧ score epochJob = 1000000000000 ∧
      ¬ (score epochJob < score farFutureJob) ∧
      (∀ q r, EnqueuePost q farFutureJob ≠ .ok r) := by
  refine ⟨rfl, rfl, by decide, by decide, by decide, by decide, by decide, ?_⟩
  intro q r h
  have := (EnqueuePost_ok_iff.1 h).1
  revert this
  decide

/-- Claim C2 (amended).  For two jobs of equal priority in `{1, 2, 3}` whose due
times are below `2 ^ 52` seconds in magnitude (as they are for every job
`EnqueuePost` accepts): if the Unix second of `j1` is strictly earlier than that
of `j2` then the score of `j1` is strictly greater; if `j1` is merely earlier at
full resolution the score of `j1` is greater or equal; and two due times within
the same second get the same score. -/
theorem score_tie_break (j1 j2 : PostJob) (hp : ValidPriority j1)
    (heq : j1.Priority = j2.Priority) :
    (-2 ^ 52 < j1.ScheduledAt.unix ∧ j1.ScheduledAt.unix < 2 ^ 52 →
      -2 ^ 52 < j2.ScheduledAt.unix ∧ j2.ScheduledAt.unix < 2 ^ 52 →
      (j1.ScheduledAt.unix < j2.ScheduledAt.unix → score j2 < score j1) ∧
      (j1.ScheduledAt.Before j2.ScheduledAt → score j2 ≤ score j1) ∧
      (j1.ScheduledAt.unix = j2.ScheduledAt.unix → score j1 = score j2)) ∧
    (∀ q1 q2 r1 r2 : RedisState, EnqueuePost q1 j1 = .ok r1 → EnqueuePost q2 j2 = .ok r2 →
      (j1.ScheduledAt.unix < j2.ScheduledAt.unix → score j2 < score j1) ∧
      (j1.ScheduledAt.Before j2.ScheduledAt → score j2 ≤ score j1) ∧
      (j1.ScheduledAt.unix = j2.ScheduledAt.unix → score j1 = score j2)) := by
  have hp2 : ValidPriority j2 := by
    unfold ValidPriority at hp ⊢
    rw [← heq]
    exact hp
  have key : -2 ^ 52 < j1.ScheduledAt.unix ∧ j1.ScheduledAt.unix < 2 ^ 52 →
      -2 ^ 52 < j2.ScheduledAt.unix ∧ j2.ScheduledAt.unix < 2 ^ 52 →
      (j1.ScheduledAt.unix < j2.ScheduledAt.unix → score j2 < score j1) ∧
      (j1.ScheduledAt.Before j2.ScheduledAt → score j2 ≤ score j1) ∧
      (j1.ScheduledAt.unix = j2.ScheduledAt.unix → score j1 = score j2) := by
    intro e1 e2
    rw [score_exact j1 hp e1, score_exact j2 hp2 e2, heq]
    refine ⟨fun h => by omega, fun h => ?_, fun h => by omega⟩
    unfold Time.Before at h
    omega
  refine ⟨key, ?_⟩
  intro q1 q2 r1 r2 h1 h2
  exact key (marshalable_exact (EnqueuePost_ok_iff.1 h1).1)
    (marshalable_exact (EnqueuePost_ok_iff.1 h2).1)

/-- Witness of `score_tie_break`: two priority-2 jobs one second apart. -/
theorem score_tie_break_witness :
    ValidPriority onTheSecondJob ∧
      onTheSecondJob.Priority = oneSecondLaterJob.Priority ∧
      EnqueuePost .empty onTheSecondJob = .ok ⟨[entryOf onTheSecondJob], []⟩ ∧
      EnqueuePost .empty oneSecondLaterJob = .ok ⟨[entryOf oneSecondLaterJob], []⟩ ∧
      onTheSecondJob.ScheduledAt.unix < oneSecondLaterJob.ScheduledAt.unix ∧
      score oneSecondLaterJob < score onTheSecondJob :=
  ⟨by decide, rfl, rfl, rfl, by decide,
    ((score_tie_break onTheSecondJob oneSecondLaterJob (by decide) rfl).2 .empty .empty
      ⟨[entryOf onTheSecondJob], []⟩ ⟨[entryOf oneSecondLaterJob], []⟩ rfl rfl).1
      (by decide)⟩

/-- Claim C2 (counterexample).  Two priority-2 jobs that `EnqueuePost` accepts, the
first due half a second before the second within the same Unix second: the first
is strictly earlier at full resolution, yet both get the same score. -/
theorem score_tie_break_counterexample :
    onTheSecondJob.Priority = halfSecondLaterJob.Priority ∧
      onTheSecondJob.ScheduledAt.Before halfSecondLaterJob.ScheduledAt ∧
      EnqueuePost .empty onTheSecondJob = .ok ⟨[entryOf onTheSecondJob], []⟩ ∧
      EnqueuePost .empty halfSecondLaterJob = .ok ⟨[entryOf halfSecondLaterJob], []⟩ ∧
      score onTheSecondJob = score halfSecondLaterJob ∧
      ¬ (score halfSecondLaterJob < score onTheSecondJob) :=
  ⟨rfl, by decide, rfl, rfl, by decide, by decide⟩

/-! ## Extraction order -/

theorem place_perm (e : Z) (z : ZSet) : (ZSet.place e z).Perm (e :: z) := by
  induction z with
  | nil => simp [ZSet.place]
  | cons y ys ih =>
    unfold ZSet.place
    split
    · exact List.Perm.refl _
    · exact (ih.cons y).trans (List.Perm.swap e y ys)

theorem place_descending (e : Z) (z : ZSet) (h : Descending z) :
    Descending (ZSet.place e z) := by
  induction z with
  | nil => simp [ZSet.place, Descending]
  | cons y ys ih =>
    unfold Descending at h ih ⊢
    rw [List.pairwise_cons] at h
    unfold ZSet.place
    split
    · rename_i hle
      rw [List.pairwise_cons]
      refine ⟨?_, List.pairwise_cons.2 h⟩
      intro b hb
      rcases List.mem_cons.1 hb with rfl | hb
      · exact hle
      · exact le_trans (h.1 b hb) hle
    · rename_i hlt
      rw [List.pairwise_cons]
      refine ⟨?_, ih h.2⟩
      intro b hb
      rcases (mem_place e b ys).1 hb with rfl | hb
      · omega
      · exact h.1 b hb

theorem ZAdd_fresh (z : ZSet) (e : Z) (h : ∀ x ∈ z, x.Member ≠ e.Member) :
    ZAdd z e = ZSet.place e z := by
  unfold ZAdd
  congr 1
  rw [List.filter_eq_self]
  intro x hx
  simpa using h x hx

theorem ZAdd_descending (z : ZSet) (e : Z) (h : Descending z) : Descending (ZAdd z e) := by
  unfold ZAdd
  apply place_descending
  exact List.Pairwise.filter _ h

theorem extractAll_all (z : ZSet) : ∀ n, z.length ≤ n → extractAll n z = (z, []) := by
  induction z with
  | nil =>
    intro n _
    cases n <;> simp [extractAll, ZPopMax]
  | cons e rest ih =>
    intro n hn
    cases n with
    | zero => simp at hn
    | succ n =>
      have hr : rest.length ≤ n := by simpa using hn
      simp [extractAll, ZPopMax, ih n hr]

theorem enqueueAll_spec (jobs : List PostJob) :
    ∀ q : RedisState, (∀ j ∈ jobs, j.ScheduledAt.Marshalable) → (jobs.map score).Nodup →
      (∀ x ∈ q.scheduled_posts, ∀ j ∈ jobs, x.Member ≠ .json j) →
      Descending q.scheduled_posts →
      (enqueueAll q jobs).failed_posts = q.failed_posts ∧
        (enqueueAll q jobs).scheduled_posts.Perm (jobs.map entryOf ++ q.scheduled_posts) ∧
        Descending (enqueueAll q jobs).scheduled_posts := by
  induction jobs with
  | nil =>
    intro q _ _ _ hd
    exact ⟨rfl, List.Perm.refl _, hd⟩
  | cons j js ih =>
    intro q hm hn hf hd
    have hj : j.ScheduledAt.Marshalable := hm j (List.mem_cons_self _ _)
    rw [List.map_cons, List.nodup_cons] at hn
    have hfresh : ZAdd q.scheduled_posts (entryOf j) = ZSet.place (entryOf j) q.scheduled_posts :=
      ZAdd_fresh _ _ fun x hx => hf x hx j (List.mem_cons_self _ _)
    have hstep : enqueueAll q (j :: js)
        = enqueueAll { q with scheduled_posts := ZAdd q.scheduled_posts (entryOf j) } js := by
      simp [enqueueAll, EnqueuePost_ok hj]
    rw [hstep]
    have h := ih { q with scheduled_posts := ZAdd q.scheduled_posts (entryOf j) }
      (fun k hk => hm k (List.mem_cons_of_mem _ hk)) hn.2
      (by
        intro x hx k hk
        rw [hfresh] at hx
        rcases (mem_place _ _ _).1 hx with rfl | hx
        · intro hjk
          have : j = k := by simpa [entryOf] using hjk
          exact hn.1 (this ▸ List.mem_map_of_mem score hk)
        · exact hf x hx k (List.mem_cons_of_mem _ hk))
      (ZAdd_descending _ _ hd)
    refine ⟨h.1, ?_, h.2.2⟩
    refine h.2.1.trans ?_
    simp only [hfresh, List.map_cons, List.cons_append]
    exact (List.Perm.append_left _ (place_perm _ _)).trans List.perm_middle

theorem enqueueAll_empty (jobs : List PostJob) (hm : ∀ j ∈ jobs, j.ScheduledAt.Marshalable)
    (hn : (jobs.map score).Nodup) :
    (enqueueAll .empty jobs).scheduled_posts.Perm (jobs.map entryOf) ∧
      (enqueueAll .empty jobs).scheduled_posts.Pairwise (fun a b => b.Score < a.Score) := by
  have h := enqueueAll_spec jobs .empty hm hn (by simp [RedisState.empty])
    (by simp [RedisState.empty, Descending])
  have hp : (enqueueAll .empty jobs).scheduled_posts.Perm (jobs.map entryOf) := by
    simpa [RedisState.empty] using h.2.1
  refine ⟨hp, ?_⟩
  have hs : ((enqueueAll .empty jobs).scheduled_posts.map Z.Score).Nodup := by
    have : ((jobs.map entryOf).map Z.Score) = jobs.map score := by
      simp [entryOf, Function.comp_def]
    exact ((hp.map Z.Score).nodup_iff).2 (this ▸ hn)
  have hne := List.pairwise_map.1 hs
  have hd : (enqueueAll .empty jobs).scheduled_posts.Pairwise
      (fun a b => b.Score ≤ a.Score) := h.2.2
  exact (hd.and hne).imp fun ⟨h1, h2⟩ => lt_of_le_of_ne h1 (Ne.symm h2)

theorem enqueue_pair (a b : PostJob) (ha : a.ScheduledAt.Marshalable)
    (hb : b.ScheduledAt.Marshalable) (hs : score b < score a) :
    (enqueueAll .empty [a, b]).scheduled_posts = [entryOf a, entryOf b] ∧
      (enqueueAll .empty [b, a]).scheduled_posts = [entryOf a, entryOf b] := by
  have hab : a ≠ b := by
    rintro rfl
    exact lt_irrefl _ hs
  have hba : ¬ score a ≤ score b := not_le.2 hs
  constructor
  · simp [enqueueAll, EnqueuePost_ok ha, EnqueuePost_ok hb, RedisState.empty, ZAdd,
      ZSet.place, entryOf, hab, hba]
  · simp [enqueueAll, EnqueuePost_ok ha, EnqueuePost_ok hb, RedisState.empty, ZAdd,
      ZSet.place, entryOf, hab.symm, hs.le]

/-- Claim C4.  Jobs that `EnqueuePost` accepts, enqueued into an empty
`scheduled_posts` with pairwise distinct scores, come out of repeated `ZPOPMAX`
(at least as many pops as jobs) each exactly once, in strictly descending score
order, and leave the sorted set empty.  In particular a priority-3 job due at `T`
and a priority-1 job due at `T - 60s`, enqueued in either order, come out
priority-3 first. -/
theorem extraction_order :
    (∀ (jobs : List PostJob) (n : Nat), (∀ j ∈ jobs, j.ScheduledAt.Marshalable) →
      (jobs.map score).Nodup → jobs.length ≤ n →
      (extractAll n (enqueueAll .empty jobs).scheduled_posts).2 = [] ∧
      (extractAll n (enqueueAll .empty jobs).scheduled_posts).1.Perm (jobs.map entryOf) ∧
      (extractAll n (enqueueAll .empty jobs).scheduled_posts).1.Pairwise
        (fun e1 e2 => e2.Score < e1.Score) ∧
      (extractAll n (enqueueAll .empty jobs).scheduled_posts).1.Nodup ∧
      (∀ e ∈ (extractAll n (enqueueAll .empty jobs).scheduled_posts).1,
        ∃ j ∈ jobs, unmarshalJob e.Member = .ok j ∧ e.Score = score j)) ∧
    (∀ (a b : PostJob) (n : Nat), a.Priority = 3 → b.Priority = 1 →
      b.ScheduledAt.unix = a.ScheduledAt.unix - 60 →
      a.ScheduledAt.Marshalable → b.ScheduledAt.Marshalable → 2 ≤ n →
      (extractAll n (enqueueAll .empty [a, b]).scheduled_posts).1 = [entryOf a, entryOf b] ∧
      (extractAll n (enqueueAll .empty [b, a]).scheduled_posts).1 = [entryOf a, entryOf b]) := by
  constructor
  · intro jobs n hm hn hlen
    have h := enqueueAll_empty jobs hm hn
    have hl : (enqueueAll .empty jobs).scheduled_posts.length ≤ n := by
      rw [h.1.length_eq, List.length_map]
      exact hlen
    rw [extractAll_all _ n hl]
    refine ⟨rfl, h.1, h.2, ?_, ?_⟩
    · exact h.2.imp fun hlt heq => by
        rw [heq] at hlt
        exact lt_irrefl _ hlt
    · intro e he
      obtain ⟨j, hj, rfl⟩ := List.mem_map.1 (h.1.subset he)
      exact ⟨j, hj, unmarshalJob_ok (hm j hj), rfl⟩
  · intro a b n hpa hpb hu ha hb hn
    have hs : score b < score a := by
      rw [score_exact a (Or.inr (Or.inr hpa)) (marshalable_exact ha),
        score_exact b (Or.inl hpb) (marshalable_exact hb), hpa, hpb, hu]
      omega
    have h := enqueue_pair a b ha hb hs
    rw [h.1, h.2, extractAll_all _ n (by simpa using hn)]
    exact ⟨rfl, rfl⟩

/-- Witness of `extraction_order`: the priority-3 job and the priority-1 job due
sixty seconds earlier, enqueued second-first and popped twice. -/
theorem extraction_order_witness :
    (extractAll 2 (enqueueAll .empty [freeJob, enterpriseJob]).scheduled_posts).1
        = [entryOf enterpriseJob, entryOf freeJob] ∧
      (extractAll 2 (enqueueAll .empty [enterpriseJob, freeJob]).scheduled_posts).1.Perm
        ([enterpriseJob, freeJob].map entryOf) :=
  ⟨(extraction_order.2 enterpriseJob freeJob 2 rfl rfl (by decide) (by decide) (by decide)
      (le_refl 2)).2,
    (extraction_order.1 [enterpriseJob, freeJob] 2 (by decide) (by decide) (le_refl 2)).2.1⟩

/-! ## The dispatch loop -/

theorem unmarshalJob_ok_iff {m : Member} {job : PostJob} :
    unmarshalJob m = .ok job ↔ m = .json job ∧ job.ScheduledAt.Marshalable := by
  cases m with
  | raw b => simp [unmarshalJob]
  | json j =>
    by_cases h : j.ScheduledAt.Marshalable
    · simp only [unmarshalJob, h, if_true]
      constructor
      · intro h1
        injection h1 with h1
        subst h1
        exact ⟨rfl, h⟩
      · rintro ⟨h1, _⟩
        injection h1 with h1
        rw [h1]
    · simp only [unmarshalJob, h, if_false]
      constructor
      · intro h1
        cases h1
      · rintro ⟨h1, h2⟩
        injection h1 with h1
        subst h1
        exact absurd h2 h

theorem incrRetry_marshalable {job : PostJob} (h : job.ScheduledAt.Marshalable) :
    (incrRetry job).ScheduledAt.Marshalable := h

theorem score_incrRetry (job : PostJob) : score (incrRetry job) = score job := rfl

theorem incrRetry_exact (job : PostJob) (h : IsInt64 job.RetryCount)
    (hmax : job.RetryCount < 2 ^ 63 - 1) :
    incrRetry job = { job with RetryCount := job.RetryCount + 1 } := by
  unfold IsInt64 at h
  have : wrapInt64 (job.RetryCount + 1) = job.RetryCount + 1 := by
    unfold wrapInt64
    omega
  simp [incrRetry, this]

theorem processOne_delivered (pub : PostJob → Option String) (q : RedisState) (e : Z)
    (rest : ZSet) (job : PostJob) (hpop : ZPopMax q.scheduled_posts = some (e, rest))
    (hdec : unmarshalJob e.Member = .ok job) (hpub : pub job = none) :
    processOne pub q = (.delivered job, ⟨rest, q.failed_posts⟩) := by
  simp [processOne, hpop, hdec, hpub]

theorem processOne_requeued (pub : PostJob → Option String) (q : RedisState) (e : Z)
    (rest : ZSet) (job : PostJob) (hpop : ZPopMax q.scheduled_posts = some (e, rest))
    (hdec : unmarshalJob e.Member = .ok job) (hpub : pub job ≠ none)
    (hlt : (incrRetry job).RetryCount < 3) :
    processOne pub q
      = (.requeued (incrRetry job),
          ⟨ZAdd rest (entryOf (incrRetry job)), q.failed_posts⟩) := by
  have hm := incrRetry_marshalable (unmarshalJob_ok_iff.1 hdec).2
  obtain ⟨err, herr⟩ := Option.ne_none_iff_exists'.1 hpub
  simp [processOne, hpop, hdec, herr, hlt, EnqueuePost_ok hm]

theorem processOne_deadLettered (pub : PostJob → Option String) (q : RedisState) (e : Z)
    (rest : ZSet) (job : PostJob) (hpop : ZPopMax q.scheduled_posts = some (e, rest))
    (hdec : unmarshalJob e.Member = .ok job) (hpub : pub job ≠ none)
    (hge : ¬ (incrRetry job).RetryCount < 3) :
    processOne pub q
      = (.deadLettered (incrRetry job),
          ⟨rest, .json (incrRetry job) :: q.failed_posts⟩) := by
  have hm := incrRetry_marshalable (unmarshalJob_ok_iff.1 hdec).2
  obtain ⟨err, herr⟩ := Option.ne_none_iff_exists'.1 hpub
  simp [processOne, hpop, hdec, herr, hge, marshalJob_ok hm]

theorem withRetry_self (job : PostJob) : withRetry job job.RetryCount = job := rfl

theorem incrRetry_withRetry (job : PostJob) (k : Int) (hk : IsInt64 k) (hmax : k < 2 ^ 63 - 1) :
    incrRetry (withRetry job k) = withRetry job (k + 1) := by
  rw [incrRetry_exact _ hk hmax]
  rfl

theorem ZAdd_nil (e : Z) : ZAdd [] e = [e] := rfl

theorem processOne_empty (pub : PostJob → Option String) (dl : List Member) :
    processOne pub ⟨[], dl⟩ = (.idle, ⟨[], dl⟩) := rfl

theorem process_empty (pub : PostJob → Option String) (dl : List Member) :
    ∀ n, ProcessScheduledPosts pub n ⟨[], dl⟩ = (List.replicate n .idle, ⟨[], dl⟩) := by
  intro n
  induction n with
  | zero => rfl
  | succ n ih => simp [ProcessScheduledPosts, processOne_empty, ih, List.replicate_succ]

theorem process_succ (pub : PostJob → Option String) (n : Nat) (q : RedisState) :
    ProcessScheduledPosts pub (n + 1) q
      = ((processOne pub q).1 :: (ProcessScheduledPosts pub n (processOne pub q).2).1,
          (ProcessScheduledPosts pub n (processOne pub q).2).2) := rfl

/-- Claim C3.  A job enqueued with `RetryCount = 0`: its first and its second
failed delivery put it back into `scheduled_posts` (with `RetryCount` 1, then 2)
and leave `failed_posts` untouched; its third failed delivery pushes it to
`failed_posts` and does not put it back; if the third delivery succeeds instead,
the job is never pushed to `failed_posts`.  Stated both for one delivery from any
queue state and for the whole run of a queue holding just this job. -/
theorem retry_ceiling (job : PostJob) (h0 : job.RetryCount = 0)
    (hm : job.ScheduledAt.Marshalable) :
    (∀ (pub : PostJob → Option String) (q : RedisState) (sc : Int) (rest : ZSet) (k : Int),
      ZPopMax q.scheduled_posts = some (⟨sc, .json (withRetry job k)⟩, rest) →
      pub (withRetry job k) ≠ none → (k = 0 ∨ k = 1) →
      processOne pub q
        = (.requeued (withRetry job (k + 1)),
            ⟨ZAdd rest (entryOf (withRetry job (k + 1))), q.failed_posts⟩)) ∧
    (∀ (pub : PostJob → Option String) (q : RedisState) (sc : Int) (rest : ZSet),
      ZPopMax q.scheduled_posts = some (⟨sc, .json (withRetry job 2)⟩, rest) →
      pub (withRetry job 2) ≠ none →
      processOne pub q
        = (.deadLettered (withRetry job 3),
            ⟨rest, .json (withRetry job 3) :: q.failed_posts⟩)) ∧
    (∀ (pub : PostJob → Option String) (q : RedisState) (sc : Int) (rest : ZSet),
      ZPopMax q.scheduled_posts = some (⟨sc, .json (withRetry job 2)⟩, rest) →
      pub (withRetry job 2) = none →
      processOne pub q = (.delivered (withRetry job 2), ⟨rest, q.failed_posts⟩)) ∧
    (∀ (pub : PostJob → Option String) (dl : List Member),
      pub job ≠ none → pub (withRetry job 1) ≠ none →
      EnqueuePost ⟨[], dl⟩ job = .ok ⟨[entryOf job], dl⟩ ∧
      ProcessScheduledPosts pub 1 ⟨[entryOf job], dl⟩
        = ([.requeued (withRetry job 1)], ⟨[entryOf (withRetry job 1)], dl⟩) ∧
      ProcessScheduledPosts pub 2 ⟨[entryOf job], dl⟩
        = ([.requeued (withRetry job 1), .requeued (withRetry job 2)],
            ⟨[entryOf (withRetry job 2)], dl⟩) ∧
      (pub (withRetry job 2) ≠ none → ∀ n,
        ProcessScheduledPosts pub (3 + n) ⟨[entryOf job], dl⟩
          = ([.requeued (withRetry job 1), .requeued (withRetry job 2),
                .deadLettered (withRetry job 3)] ++ List.replicate n .idle,
              ⟨[], .json (withRetry job 3) :: dl⟩)) ∧
      (pub (withRetry job 2) = none → ∀ n,
        ProcessScheduledPosts pub (3 + n) ⟨[entryOf job], dl⟩
          = ([.requeued (withRetry job 1), .requeued (withRetry job 2),
                .delivered (withRetry job 2)] ++ List.replicate n .idle,
              ⟨[], dl⟩))) := by
  have hself : withRetry job 0 = job := by
    rw [← h0]
    exact withRetry_self job
  have hd : ∀ k, unmarshalJob (.json (withRetry job k)) = .ok (withRetry job k) :=
    fun k => unmarshalJob_ok hm
  have i0 : incrRetry (withRetry job 0) = withRetry job 1 :=
    incrRetry_withRetry job 0 (by decide) (by decide)
  have i1 : incrRetry (withRetry job 1) = withRetry job 2 :=
    incrRetry_withRetry job 1 (by decide) (by decide)
  have i2 : incrRetry (withRetry job 2) = withRetry job 3 :=
    incrRetry_withRetry job 2 (by decide) (by decide)
  have step : ∀ (pub : PostJob → Option String) (q : RedisState) (sc : Int) (rest : ZSet)
      (k : Int), ZPopMax q.scheduled_posts = some (⟨sc, .json (withRetry job k)⟩, rest) →
      pub (withRetry job k) ≠ none → (k = 0 ∨ k = 1) →
      processOne pub q
        = (.requeued (withRetry job (k + 1)),
            ⟨ZAdd rest (entryOf (withRetry job (k + 1))), q.failed_posts⟩) := by
    intro pub q sc rest k hpop hpub hk
    rcases hk with rfl | rfl
    · have := processOne_requeued pub q _ rest _ hpop (hd 0) hpub (by rw [i0]; simp [withRetry])
      rw [i0] at this
      exact this
    · have := processOne_requeued pub q _ rest _ hpop (hd 1) hpub (by rw [i1]; simp [withRetry])
      rw [i1] at this
      exact this
  have dead : ∀ (pub : PostJob → Option String) (q : RedisState) (sc : Int) (rest : ZSet),
      ZPopMax q.scheduled_posts = some (⟨sc, .json (withRetry job 2)⟩, rest) →
      pub (withRetry job 2) ≠ none →
      processOne pub q
        = (.deadLettered (withRetry job 3),
            ⟨rest, .json (withRetry job 3) :: q.failed_posts⟩) := by
    intro pub q sc rest hpop hpub
    have := processOne_deadLettered pub q _ rest _ hpop (hd 2) hpub (by rw [i2]; simp [withRetry])
    rw [i2] at this
    exact this
  have done : ∀ (pub : PostJob → Option String) (q : RedisState) (sc : Int) (rest : ZSet),
      ZPopMax q.scheduled_posts = some (⟨sc, .json (withRetry job 2)⟩, rest) →
      pub (withRetry job 2) = none →
      processOne pub q = (.delivered (withRetry job 2), ⟨rest, q.failed_posts⟩) :=
    fun pub q sc rest hpop hpub => processOne_delivered pub q _ rest _ hpop (hd 2) hpub
  refine ⟨step, dead, done, ?_⟩
  intro pub dl hf0 hf1
  have s1 : processOne pub ⟨[entryOf job], dl⟩
      = (.requeued (withRetry job 1), ⟨[entryOf (withRetry job 1)], dl⟩) := by
    have := step pub ⟨[entryOf job], dl⟩ (score job) [] 0
      (by rw [hself]; rfl) (by rw [hself]; exact hf0) (Or.inl rfl)
    simpa [ZAdd_nil] using this
  have s2 : processOne pub ⟨[entryOf (withRetry job 1)], dl⟩
      = (.requeued (withRetry job 2), ⟨[entryOf (withRetry job 2)], dl⟩) := by
    have := step pub ⟨[entryOf (withRetry job 1)], dl⟩ (score (withRetry job 1)) [] 1
      rfl hf1 (Or.inr rfl)
    simpa [ZAdd_nil] using this
  refine ⟨?_, ?_, ?_, ?_, ?_⟩
  · rw [EnqueuePost_ok hm]
    rfl
  · simp [process_succ, s1, ProcessScheduledPosts]
  · simp [process_succ, s1, s2, ProcessScheduledPosts]
  · intro hf2 n
    have s3 := dead pub ⟨[entryOf (withRetry job 2)], dl⟩ (score (withRetry job 2)) [] rfl hf2
    rw [show 3 + n = n + 1 + 1 + 1 by omega]
    simp [process_succ, s1, s2, s3, process_empty]
  · intro hf2 n
    have s3 := done pub ⟨[entryOf (withRetry job 2)], dl⟩ (score (withRetry job 2)) [] rfl hf2
    rw [show 3 + n = n + 1 + 1 + 1 by omega]
    simp [process_succ, s1, s2, s3, process_empty]

/-- Witness of `retry_ceiling`: the priority-3 job run against a publisher that
always fails, and against one that fails twice and then succeeds. -/
theorem retry_ceiling_witness :
    enterpriseJob.RetryCount = 0 ∧ enterpriseJob.ScheduledAt.Marshalable ∧
      ProcessScheduledPosts alwaysFails 3 ⟨[entryOf enterpriseJob], []⟩
        = ([.requeued (withRetry enterpriseJob 1), .requeued (withRetry enterpriseJob 2),
              .deadLettered (withRetry enterpriseJob 3)],
            ⟨[], [.json (withRetry enterpriseJob 3)]⟩) ∧
      ProcessScheduledPosts failsTwice 3 ⟨[entryOf enterpriseJob], []⟩
        = ([.requeued (withRetry enterpriseJob 1), .requeued (withRetry enterpriseJob 2),
              .delivered (withRetry enterpriseJob 2)],
            ⟨[], []⟩) :=
  ⟨rfl, by decide,
    ((retry_ceiling enterpriseJob rfl (by decide)).2.2.2 alwaysFails []
      (by decide) (by decide)).2.2.2.1 (by decide) 0,
    ((retry_ceiling enterpriseJob rfl (by decide)).2.2.2 failsTwice []
      (by decide) (by decide)).2.2.2.2 (by decide) 0⟩

/-! ## The publisher -/

theorem Publish_unsupported (p : Publisher) (job : PostJob)
    (h : job.Platform ≠ "META" ∧ job.Platform ≠ "X" ∧ job.Platform ≠ "LINKEDIN" ∧
      job.Platform ≠ "TIKTOK") :
    p.Publish job = some ("unsupported platform: " ++ job.Platform) := by
  simp [Publisher.Publish, h.1, h.2.1, h.2.2.1, h.2.2.2]

theorem Publish_ne_none (p : Publisher) (job : PostJob) : p.Publish job ≠ none := by
  unfold Publisher.Publish MetaClient.Publish XClient.Publish LinkedInClient.Publish
    TikTokClient.Publish
  simp only
  split_ifs <;> simp

theorem processOne_ne_delivered (pub : PostJob → Option String)
    (hpub : ∀ job, pub job ≠ none) (q : RedisState) (j : PostJob) :
    (processOne pub q).1 ≠ .delivered j := by
  unfold processOne
  split
  · simp
  · split
    · simp
    · rename_i job _
      obtain ⟨err, herr⟩ := Option.ne_none_iff_exists'.1 (hpub job)
      simp only [herr]
      split_ifs
      · split <;> simp
      · simp

theorem process_ne_delivered (pub : PostJob → Option String)
    (hpub : ∀ job, pub job ≠ none) (j : PostJob) :
    ∀ (n : Nat) (q : RedisState), Outcome.delivered j ∉ (ProcessScheduledPosts pub n q).1 := by
  intro n
  induction n with
  | zero =>
    intro q
    simp [ProcessScheduledPosts]
  | succ n ih =>
    intro q
    rw [process_succ]
    simp only [List.mem_cons, not_or]
    exact ⟨fun h => processOne_ne_delivered pub hpub q j h.symm, ih _⟩

/-- Claim C5.  For a job whose platform is none of `META`, `X`, `LINKEDIN`,
`TIKTOK`, `Publisher.Publish` returns the unsupported-platform error whatever the
publisher's credentials are, and an iteration of the dispatch loop that pops this
job does exactly what it does for any other failing publisher: the retry count is
incremented, and the job is put back into `scheduled_posts` when the new count is
below 3 and pushed to `failed_posts` otherwise; in both cases the job is still
stored afterwards. -/
theorem unsupported_platform (p : Publisher) (job : PostJob)
    (h : job.Platform ≠ "META" ∧ job.Platform ≠ "X" ∧ job.Platform ≠ "LINKEDIN" ∧
      job.Platform ≠ "TIKTOK") :
    p.Publish job = some ("unsupported platform: " ++ job.Platform) ∧
    (IsInt64 job.RetryCount → job.RetryCount < 2 ^ 63 - 1 →
      (incrRetry job).RetryCount = job.RetryCount + 1) ∧
    (∀ (q : RedisState) (e : Z) (rest : ZSet),
      ZPopMax q.scheduled_posts = some (e, rest) → unmarshalJob e.Member = .ok job →
      (∀ pub : PostJob → Option String, pub job ≠ none →
        processOne pub q = processOne p.Publish q) ∧
      ((incrRetry job).RetryCount < 3 →
        processOne p.Publish q
          = (.requeued (incrRetry job),
              ⟨ZAdd rest (entryOf (incrRetry job)), q.failed_posts⟩)) ∧
      (¬ (incrRetry job).RetryCount < 3 →
        processOne p.Publish q
          = (.deadLettered (incrRetry job),
              ⟨rest, .json (incrRetry job) :: q.failed_posts⟩)) ∧
      (entryOf (incrRetry job) ∈ (processOne p.Publish q).2.scheduled_posts ∨
        .json (incrRetry job) ∈ (processOne p.Publish q).2.failed_posts)) := by
  have hp : p.Publish job ≠ none := by
    rw [Publish_unsupported p job h]
    simp
  refine ⟨Publish_unsupported p job h, ?_, ?_⟩
  · intro hi hmax
    rw [incrRetry_exact job hi hmax]
  · intro q e rest hpop hdec
    have hre := processOne_requeued p.Publish q e rest job hpop hdec hp
    have hdl := processOne_deadLettered p.Publish q e rest job hpop hdec hp
    refine ⟨?_, hre, hdl, ?_⟩
    · intro pub hpub
      by_cases hlt : (incrRetry job).RetryCount < 3
      · rw [hre hlt, processOne_requeued pub q e rest job hpop hdec hpub hlt]
      · rw [hdl hlt, processOne_deadLettered pub q e rest job hpop hdec hpub hlt]
    · by_cases hlt : (incrRetry job).RetryCount < 3
      · rw [hre hlt]
        exact Or.inl (mem_ZAdd_self _ _)
      · rw [hdl hlt]
        exact Or.inr (List.mem_cons_self _ _)

/-- Witness of `unsupported_platform`: a job for platform `UNKNOWN` against a
publisher with every credential set. -/
theorem unsupported_platform_witness :
    (Publisher.New fullConfig).Publish unknownPlatformJob
        = some "unsupported platform: UNKNOWN" ∧
      processOne (Publisher.New fullConfig).Publish ⟨[entryOf unknownPlatformJob], []⟩
        = (.requeued (withRetry unknownPlatformJob 1),
            ⟨[entryOf (withRetry unknownPlatformJob 1)], []⟩) :=
  ⟨(unsupported_platform (Publisher.New fullConfig) unknownPlatformJob (by decide)).1,
    ((unsupported_platform (Publisher.New fullConfig) unknownPlatformJob
      (by decide)).2.2 ⟨[entryOf unknownPlatformJob], []⟩ (entryOf unknownPlatformJob) []
        rfl rfl).2.1 (by decide)⟩

/-- Claim C6 (amended).  When a delivery fails and the retry count after
`RetryCount++` is below 3, the job put back equals the extracted job except for
`RetryCount`, which is the incremented value of the Go `int`: one greater for
every retry count below `2 ^ 63 - 1`, and `-2 ^ 63` at `2 ^ 63 - 1`.  Its priority
and due time are unchanged, and the score `EnqueuePost` writes for it is the score
it wrote when the extracted job was first enqueued, since the score does not read
`RetryCount`. -/
theorem requeue_frame (pub : PostJob → Option String) (q : RedisState) (e : Z)
    (rest : ZSet) (job : PostJob) (hpop : ZPopMax q.scheduled_posts = some (e, rest))
    (hdec : unmarshalJob e.Member = .ok job) (hpub : pub job ≠ none)
    (hint : IsInt64 job.RetryCount) (hlt : (incrRetry job).RetryCount < 3) :
    processOne pub q
        = (.requeued { job with RetryCount := wrapInt64 (job.RetryCount + 1) },
            ⟨ZAdd rest
                ⟨score job, .json { job with RetryCount := wrapInt64 (job.RetryCount + 1) }⟩,
              q.failed_posts⟩) ∧
      (job.RetryCount < 2 ^ 63 - 1 → wrapInt64 (job.RetryCount + 1) = job.RetryCount + 1) ∧
      (job.RetryCount = 2 ^ 63 - 1 → wrapInt64 (job.RetryCount + 1) = -2 ^ 63) ∧
      (job.RetryCount + 1 < 3 →
        processOne pub q
          = (.requeued { job with RetryCount := job.RetryCount + 1 },
              ⟨ZAdd rest ⟨score job, .json { job with RetryCount := job.RetryCount + 1 }⟩,
                q.failed_posts⟩)) ∧
      ({ job with RetryCount := wrapInt64 (job.RetryCount + 1) } : PostJob).Priority
        = job.Priority ∧
      ({ job with RetryCount := wrapInt64 (job.RetryCount + 1) } : PostJob).ScheduledAt
        = job.ScheduledAt ∧
      score { job with RetryCount := wrapInt64 (job.RetryCount + 1) } = score job ∧
      (∀ n : Int, score { job with RetryCount := n } = score job) ∧
      (∀ q0 : RedisState, EnqueuePost q0 job
        = .ok { q0 with scheduled_posts := ZAdd q0.scheduled_posts ⟨score job, .json job⟩ }) := by
  have hm := (unmarshalJob_ok_iff.1 hdec).2
  have hstep := processOne_requeued pub q e rest job hpop hdec hpub hlt
  have hsmall : job.RetryCount < 2 ^ 63 - 1 →
      wrapInt64 (job.RetryCount + 1) = job.RetryCount + 1 := by
    intro hmax
    unfold IsInt64 at hint
    unfold wrapInt64
    omega
  refine ⟨hstep, hsmall, ?_, ?_, rfl, rfl, rfl, fun _ => rfl, fun q0 => EnqueuePost_ok hm⟩
  · intro hmax
    rw [hmax]
    decide
  · intro h3
    have hw := hsmall (by omega)
    have hstep2 := hstep
    simp only [incrRetry, entryOf, score] at hstep2 ⊢
    rw [hw] at hstep2
    exact hstep2

/-- Witness of `requeue_frame`: the first failed delivery of the priority-3 job. -/
theorem requeue_frame_witness :
    IsInt64 enterpriseJob.RetryCount ∧ (incrRetry enterpriseJob).RetryCount < 3 ∧
      processOne alwaysFails ⟨[entryOf enterpriseJob], []⟩
        = (.requeued { enterpriseJob with RetryCount := 1 },
            ⟨[⟨score enterpriseJob, .json { enterpriseJob with RetryCount := 1 }⟩], []⟩) :=
  ⟨by decide, by decide,
    (requeue_frame alwaysFails ⟨[entryOf enterpriseJob], []⟩ (entryOf enterpriseJob) []
      enterpriseJob rfl rfl (by decide) (by decide) (by decide)).1⟩

/-- Claim C6 (counterexample).  The priority-3 job extracted with the retry count
`2 ^ 63 - 1`, an `int64` value: the delivery fails, `RetryCount++` wraps to
`-2 ^ 63`, which is below 3, so the job is put back, and its retry count is not one
greater than the extracted one. -/
theorem requeue_frame_counterexample :
    IsInt64 maxRetryJob.RetryCount ∧
      unmarshalJob (entryOf maxRetryJob).Member = .ok maxRetryJob ∧
      alwaysFails maxRetryJob ≠ none ∧
      (incrRetry maxRetryJob).RetryCount = -9223372036854775808 ∧
      (incrRetry maxRetryJob).RetryCount < 3 ∧
      processOne alwaysFails ⟨[entryOf maxRetryJob], []⟩
        = (.requeued { maxRetryJob with RetryCount := -9223372036854775808 },
            ⟨[⟨score maxRetryJob,
                .json { maxRetryJob with RetryCount := -9223372036854775808 }⟩], []⟩) ∧
      (incrRetry maxRetryJob).RetryCount ≠ maxRetryJob.RetryCount + 1 :=
  ⟨by decide, rfl, by decide, by decide, by decide, rfl, by decide⟩

/-- Claim C9.  Every platform client returns an error, with and without
credentials, so `Publisher.Publish` returns an error for every publisher and every
job, and no iteration of the dispatch loop ever delivers a job. -/
theorem publish_never_succeeds (p : Publisher) (job : PostJob) :
    (∀ c : MetaClient, (c.Publish job).2 ≠ none) ∧
      (∀ c : XClient, (c.Publish job).2 ≠ none) ∧
      (∀ c : LinkedInClient, (c.Publish job).2 ≠ none) ∧
      (∀ c : TikTokClient, (c.Publish job).2 ≠ none) ∧
      p.Publish job ≠ none ∧
      (∀ cfg : Config, (Publisher.New cfg).Publish job ≠ none) ∧
      (∀ q : RedisState, (processOne p.Publish q).1 ≠ .delivered job) ∧
      (∀ (n : Nat) (q : RedisState),
        Outcome.delivered job ∉ (ProcessScheduledPosts p.Publish n q).1) := by
  refine ⟨?_, ?_, ?_, ?_, Publish_ne_none p job, fun cfg => Publish_ne_none _ job,
    fun q => processOne_ne_delivered _ (Publish_ne_none p) q job,
    process_ne_delivered _ (Publish_ne_none p) job⟩
  · intro c
    unfold MetaClient.Publish
    split_ifs <;> simp
  · intro c
    unfold XClient.Publish
    split_ifs <;> simp
  · intro c
    unfold LinkedInClient.Publish
    split_ifs <;> simp
  · intro c
    unfold TikTokClient.Publish
    split_ifs <;> simp

/-! ## The poller -/

theorem whereClause_iff (now t : Int) (r : Row) (hp : r.p_status = some "SCHEDULED")
    (hc : r.pc_status = some "SCHEDULED") :
    whereClause now { r with p_scheduled_at := some t } = true ↔
      now - 15 * 60 * 1000000 < t ∧ t ≤ now + 60 * 1000000 := by
  simp only [whereClause, hp, hc, beq_self_eq_true, Bool.true_and, Bool.and_eq_true,
    decide_eq_true_eq, gt_iff_lt]
  tauto

theorem fetch_single (decode : Option String → List String) (zone now : Int) (r : Row)
    (q : RedisState) :
    fetchAndQueuePosts decode zone now [r] q =
      if whereClause now r = true then
        match scanRow decode zone r with
        | .error _ => q
        | .ok job =>
          match EnqueuePost q job with
          | .ok q1 => q1
          | .error _ => q
      else q := by
  unfold fetchAndQueuePosts
  by_cases h : whereClause now r = true
  · simp only [h, List.filter, List.insertionSort, List.orderedInsert, enqueueRows, if_true]
  · simp [h, List.filter, List.insertionSort, enqueueRows]

/-- Claim C7.  For a joined row whose post and platform configuration are both in
status `SCHEDULED`, the query of the poller selects the row if and only if
`now - 15min < scheduled_at <= now + 1min`: `now + 2min` and `now - 20min` are not
selected, `now` and the upper bound `now + 1min` are, the lower bound
`now - 15min` is not.  A row the query does not select leaves the queue as it was,
and a selected row that scans and serialises is enqueued. -/
theorem due_window (now : Int) (r : Row) (hp : r.p_status = some "SCHEDULED")
    (hc : r.pc_status = some "SCHEDULED") :
    (∀ t : Int, whereClause now { r with p_scheduled_at := some t } = true ↔
      now - 15 * 60 * 1000000 < t ∧ t ≤ now + 60 * 1000000) ∧
    whereClause now { r with p_scheduled_at := some (now + 2 * 60 * 1000000) } = false ∧
    whereClause now { r with p_scheduled_at := some (now - 20 * 60 * 1000000) } = false ∧
    whereClause now { r with p_scheduled_at := some now } = true ∧
    whereClause now { r with p_scheduled_at := some (now + 60 * 1000000) } = true ∧
    whereClause now { r with p_scheduled_at := some (now - 15 * 60 * 1000000) } = false ∧
    (∀ (decode : Option String → List String) (zone : Int) (q : RedisState),
      whereClause now r = false → fetchAndQueuePosts decode zone now [r] q = q) ∧
    (∀ (decode : Option String → List String) (zone : Int) (q : RedisState) (job : PostJob),
      whereClause now r = true → scanRow decode zone r = .ok job →
      job.ScheduledAt.Marshalable →
      fetchAndQueuePosts decode zone now [r] q
        = { q with scheduled_posts := ZAdd q.scheduled_posts (entryOf job) }) := by
  have key := fun t => whereClause_iff now t r hp hc
  have no : ∀ t : Int, ¬ (now - 15 * 60 * 1000000 < t ∧ t ≤ now + 60 * 1000000) →
      whereClause now { r with p_scheduled_at := some t } = false := by
    intro t ht
    rw [← Bool.not_eq_true, key t]
    exact ht
  refine ⟨key, no _ (by omega), no _ (by omega), (key _).2 (by omega), (key _).2 (by omega),
    no _ (by omega), ?_, ?_⟩
  · intro decode zone q h
    rw [fetch_single]
    simp [h]
  · intro decode zone q job h hs hm
    rw [fetch_single]
    simp [h, hs, EnqueuePost_ok hm]

/-- Witness of `due_window`: a `SCHEDULED` row due exactly at `now`. -/
theorem due_window_witness :
    emptyOverrideRow.p_status = some "SCHEDULED" ∧
      emptyOverrideRow.pc_status = some "SCHEDULED" ∧
      whereClause 1700000000000000
        { emptyOverrideRow with p_scheduled_at := some 1700000000000000 } = true ∧
      whereClause 1700000000000000
        { emptyOverrideRow with
          p_scheduled_at := some (1700000000000000 + 2 * 60 * 1000000) } = false :=
  ⟨rfl, rfl, (due_window 1700000000000000 emptyOverrideRow rfl rfl).2.2.2.1,
    (due_window 1700000000000000 emptyOverrideRow rfl rfl).2.1⟩

theorem scanRow_content (decode : Option String → List String) (zone : Int) (r : Row)
    (job : PostJob) (h : scanRow decode zone r = .ok job) :
    coalesce r.pc_content r.p_content = some job.Content := by
  unfold scanRow at h
  split at h
  · rename_i hcontent _
    injection h with h
    rw [hcontent, ← h]
  · cases h

theorem scanRow_ok (decode : Option String → List String) (zone : Int) (r : Row)
    (pf ac : String) (ts : Int) (c : String) (h1 : r.pc_platform = some pf)
    (h2 : r.pc_account_id = some ac) (h3 : r.p_scheduled_at = some ts)
    (h4 : coalesce r.pc_content r.p_content = some c) :
    ∃ job, scanRow decode zone r = .ok job ∧ job.Content = c := by
  unfold scanRow
  rw [h1, h2, h3, h4]
  exact ⟨_, rfl, rfl⟩

/-- Claim C8 (amended).  The content of the job the poller builds from a row is
`COALESCE(pc.content, p.content)`: the platform-configuration content whenever
that is not `NULL`, the empty string included, and the post's own content only
when it is `NULL`.  With post content `A`: configuration content `B` gives `B`,
`NULL` gives `A`, and the empty string gives the empty string. -/
theorem content_override (decode : Option String → List String) (zone : Int) (r : Row)
    (pf ac : String) (ts : Int) (h1 : r.pc_platform = some pf)
    (h2 : r.pc_account_id = some ac) (h3 : r.p_scheduled_at = some ts) :
    (∀ job, scanRow decode zone r = .ok job →
      (∀ c, r.pc_content = some c → job.Content = c) ∧
      (r.pc_content = none → r.p_content = some job.Content)) ∧
    (∃ job, scanRow decode zone { r with pc_content := some "B", p_content := some "A" }
      = .ok job ∧ job.Content = "B") ∧
    (∃ job, scanRow decode zone { r with pc_content := none, p_content := some "A" }
      = .ok job ∧ job.Content = "A") ∧
    (∃ job, scanRow decode zone { r with pc_content := some "", p_content := some "A" }
      = .ok job ∧ job.Content = "") := by
  refine ⟨?_, ?_, ?_, ?_⟩
  · intro job h
    have hc := scanRow_content decode zone r job h
    constructor
    · intro c hpc
      rw [hpc] at hc
      injection hc with hc
      exact hc.symm
    · intro hpc
      rw [hpc] at hc
      exact hc
  · exact scanRow_ok decode zone _ pf ac ts "B" h1 h2 h3 rfl
  · exact scanRow_ok decode zone _ pf ac ts "A" h1 h2 h3 rfl
  · exact scanRow_ok decode zone _ pf ac ts "" h1 h2 h3 rfl

/-- Witness of `content_override`: the row with post content `A`, once with the
configuration content `B`. -/
theorem content_override_witness :
    ∃ job, scanRow noStrings 0
        { emptyOverrideRow with pc_content := some "B", p_content := some "A" } = .ok job ∧
      job.Content = "B" :=
  (content_override noStrings 0 emptyOverrideRow "X" "a9" 1700000000000000 rfl rfl rfl).2.1

/-- Claim C8 (counterexample).  A row whose platform-configuration content is the
empty string and whose post content is `A` scans to a job whose content is the
empty string, not `A`. -/
theorem content_override_counterexample :
    emptyOverrideRow.pc_content = some "" ∧ emptyOverrideRow.p_content = some "A" ∧
      (scanRow noStrings 0 emptyOverrideRow).map PostJob.Content = .ok "" ∧
      (scanRow noStrings 0 emptyOverrideRow).map PostJob.Content ≠ .ok "A" := by
  refine ⟨rfl, rfl, rfl, ?_⟩
  intro h
  injection h with h
  exact absurd h (by decide)

/-! ## Idempotence of `EnqueuePost` -/

theorem filter_ne_place (e : Z) (z : ZSet) (h : ∀ x ∈ z, x.Member ≠ e.Member) :
    (ZSet.place e z).filter (fun x => x.Member ≠ e.Member) = z := by
  induction z with
  | nil => simp [ZSet.place]
  | cons y ys ih =>
    have hy : y.Member ≠ e.Member := h y (List.mem_cons_self _ _)
    have hys : ∀ x ∈ ys, x.Member ≠ e.Member := fun x hx => h x (List.mem_cons_of_mem _ hx)
    have hfil : ys.filter (fun x => x.Member ≠ e.Member) = ys := by
      rw [List.filter_eq_self]
      intro x hx
      simpa using hys x hx
    unfold ZSet.place
    split
    · rw [List.filter_cons_of_neg (by simp), List.filter_cons_of_pos (by simpa using hy), hfil]
    · rw [List.filter_cons_of_pos (by simpa using hy), ih hys]

theorem filter_eq_place (e : Z) (z : ZSet) (h : ∀ x ∈ z, x.Member ≠ e.Member) :
    (ZSet.place e z).filter (fun x => x.Member = e.Member) = [e] := by
  induction z with
  | nil => simp [ZSet.place]
  | cons y ys ih =>
    have hy : y.Member ≠ e.Member := h y (List.mem_cons_self _ _)
    have hys : ∀ x ∈ ys, x.Member ≠ e.Member := fun x hx => h x (List.mem_cons_of_mem _ hx)
    have hfil : ys.filter (fun x => x.Member = e.Member) = [] := by
      rw [List.filter_eq_nil_iff]
      intro x hx
      simpa using hys x hx
    unfold ZSet.place
    split
    · simp [hy, hfil]
    · simp [hy, ih hys]

theorem ZAdd_idem (z : ZSet) (e : Z) : ZAdd (ZAdd z e) e = ZAdd z e := by
  have h : ∀ x ∈ z.filter (fun x => x.Member ≠ e.Member), x.Member ≠ e.Member := by
    intro x hx
    simpa using (List.mem_filter.1 hx).2
  unfold ZAdd
  rw [filter_ne_place e _ h]

/-- Claim C10.  `EnqueuePost` is idempotent on `scheduled_posts`: calling it twice
with the same job gives the result of calling it once (the same state, or the same
error), and after a successful call the sorted set holds exactly one entry for the
job, carrying the score of the job. -/
theorem EnqueuePost_idempotent (q : RedisState) (job : PostJob) :
    (EnqueuePost q job >>= fun r => EnqueuePost r job) = EnqueuePost q job ∧
    (∀ r, EnqueuePost q job = .ok r →
      EnqueuePost r job = .ok r ∧
      r.scheduled_posts.filter (fun x => x.Member = .json job) = [⟨score job, .json job⟩] ∧
      r.failed_posts = q.failed_posts) ∧
    (∀ err, EnqueuePost q job = .error err → ¬ job.ScheduledAt.Marshalable) := by
  have hfresh : ∀ x ∈ q.scheduled_posts.filter (fun x => x.Member ≠ (entryOf job).Member),
      x.Member ≠ (entryOf job).Member := by
    intro x hx
    simpa using (List.mem_filter.1 hx).2
  by_cases hm : job.ScheduledAt.Marshalable
  · have h2 : EnqueuePost { q with scheduled_posts := ZAdd q.scheduled_posts (entryOf job) } job
        = .ok { q with scheduled_posts := ZAdd q.scheduled_posts (entryOf job) } := by
      rw [EnqueuePost_ok hm]
      simp [ZAdd_idem]
    refine ⟨?_, ?_, ?_⟩
    · rw [EnqueuePost_ok hm]
      exact h2
    · intro r hr
      obtain ⟨_, rfl⟩ := EnqueuePost_ok_iff.1 hr
      refine ⟨h2, ?_, rfl⟩
      exact filter_eq_place (entryOf job) _ hfresh
    · intro err herr
      rw [EnqueuePost_ok hm] at herr
      cases herr
  · refine ⟨?_, ?_, fun _ _ => hm⟩
    · simp [EnqueuePost, marshalJob, hm]
      rfl
    · intro r hr
      exact absurd (EnqueuePost_ok_iff.1 hr).1 hm

/-- Witness of `EnqueuePost_idempotent`: the priority-3 job enqueued twice into a
queue that already holds the priority-1 job. -/
theorem EnqueuePost_idempotent_witness :
    EnqueuePost ⟨[entryOf freeJob], []⟩ enterpriseJob
        = .ok ⟨[entryOf enterpriseJob, entryOf freeJob], []⟩ ∧
      EnqueuePost ⟨[entryOf enterpriseJob, entryOf freeJob], []⟩ enterpriseJob
        = .ok ⟨[entryOf enterpriseJob, entryOf freeJob], []⟩ :=
  ⟨rfl,
    ((EnqueuePost_idempotent ⟨[entryOf freeJob], []⟩ enterpriseJob).2.1
      ⟨[entryOf enterpriseJob, entryOf freeJob], []⟩ rfl).1⟩

end Scheduler
